import Mathlib

/-!
Shallow embedding of `convert.py` (WebP batch converter): path resolution,
file walking, per-file processing and the batch driver, over an explicit
filesystem state.  Pure string/path manipulation follows Python `pathlib`
semantics; the external raster/vector codecs (PIL, cairosvg) are modelled by
per-file capability flags recorded in the file metadata.
-/

namespace WebpConv

/-- A filesystem path, as the list of its components below the root. -/
abbrev FPath := List String

/-- String concatenation, written through the character data so that the
development can reason about it by list lemmas. -/
def strCat (a b : String) : String := ⟨a.data ++ b.data⟩

/-- Lower-casing of a string, character by character (Python `str.lower`). -/
def lowerStr (s : String) : String := ⟨s.data.map Char.toLower⟩

/-- Upper-casing of a string, character by character (Python `str.upper`). -/
def upperStr (s : String) : String := ⟨s.data.map Char.toUpper⟩

/-- Position of the first `'.'` in a character list (the length when there is
none); applied to a reversed name this is Python's `name.rfind('.')` seen from
the right end. -/
def idxOfDot : List Char → Nat
  | [] => 0
  | c :: cs => if c = '.' then 0 else idxOfDot cs + 1

/-- `pathlib` split of a file name into stem and extension: the split happens
at the index `name.length - 1 - idxOfDot name.reverse` of the last `'.'`,
provided that dot is neither the leading character nor the last one;
otherwise the whole name is the stem and the extension is empty. -/
def splitExt (name : List Char) : List Char × List Char :=
  if 0 < name.length - 1 - idxOfDot name.reverse ∧
      name.length - 1 - idxOfDot name.reverse < name.length - 1 then
    (name.take (name.length - 1 - idxOfDot name.reverse),
     name.drop (name.length - 1 - idxOfDot name.reverse))
  else (name, [])

/-- Recognizes the character shape shared by every supported extension
string: a leading dot followed by a nonempty, dot-free tail. -/
def extShapeB (l : List Char) : Bool :=
  decide (l.headD 'x' = '.') && decide (2 ≤ l.length) && decide ('.' ∉ l.tail)

/-- The final component of a path (`Path.name`). -/
def fname (p : FPath) : String := p.getLastD ""

/-- `Path.stem`: the final component without its extension. -/
def fstem (p : FPath) : String := ⟨(splitExt (fname p).data).1⟩

/-- `Path.suffix`: the extension of the final component, dot included. -/
def fext (p : FPath) : String := ⟨(splitExt (fname p).data).2⟩

/-- The parent path (`Path.parent`). -/
def parentDir (p : FPath) : FPath := p.dropLast

/-- `Path.with_suffix('.webp')`: same parent, stem kept, extension replaced. -/
def with_suffix (p : FPath) (suf : String) : FPath :=
  parentDir p ++ [strCat (fstem p) suf]

/-- `base.isAncestorOf p`: the components of `base` lead the components of
`p`; this is the success condition of `Path.relative_to`. -/
def isAncestorOf : FPath → FPath → Bool
  | [], _ => true
  | _ :: _, [] => false
  | a :: as, b :: bs => decide (a = b) && isAncestorOf as bs

/-- Metadata of one regular file.  `mtime` and `size` are what `stat` reports;
the three flags and `webpSize` model the external codecs on this file's
content: whether PIL can decode it, whether the WebP encode of it succeeds,
whether cairosvg can rasterize it, and how large the encoded WebP output is. -/
structure FileInfo where
  mtime : Nat
  size : Nat
  decodeOk : Bool := true
  encodeOk : Bool := true
  rasterOk : Bool := true
  webpSize : Nat := 0
  truncated : Bool := false
deriving DecidableEq, Repr

/-- The filesystem: regular files with metadata, directories, and the current
clock used to stamp newly written files. -/
structure FS where
  files : List (FPath × FileInfo)
  dirs : List FPath
  now : Nat
deriving DecidableEq, Repr

/-- Association-list search of a file entry. -/
def assocFind : List (FPath × FileInfo) → FPath → Option FileInfo
  | [], _ => none
  | (q, j) :: rest, p => if q = p then some j else assocFind rest p

/-- Write (create or overwrite) one file entry. -/
def setAssoc : List (FPath × FileInfo) → FPath → FileInfo → List (FPath × FileInfo)
  | [], p, i => [(p, i)]
  | (q, j) :: rest, p, i => if q = p then (p, i) :: rest else (q, j) :: setAssoc rest p i

/-- Remove a file entry. -/
def removeAssoc : List (FPath × FileInfo) → FPath → List (FPath × FileInfo)
  | [], _ => []
  | (q, j) :: rest, p => if q = p then removeAssoc rest p else (q, j) :: removeAssoc rest p

/-- `p.is_file()`. -/
def pathExistsFile (fs : FS) (p : FPath) : Bool := (assocFind fs.files p).isSome

/-- `p.is_dir()`. -/
def pathIsDir (fs : FS) (p : FPath) : Bool := decide (p ∈ fs.dirs)

/-- `p.exists()`. -/
def pathExists (fs : FS) (p : FPath) : Bool := pathExistsFile fs p || pathIsDir fs p

/-- Write one file into the filesystem. -/
def setFile (fs : FS) (p : FPath) (i : FileInfo) : FS :=
  { fs with files := setAssoc fs.files p i }

/-- `p.unlink()`'s effect. -/
def removeFile (fs : FS) (p : FPath) : FS :=
  { fs with files := removeAssoc fs.files p }

/-- Python exceptions that the embedded code can raise. -/
inductive PyErr where
  /-- `ValueError`, raised by `Path.relative_to` on a non-ancestor base. -/
  | valueError : PyErr
  /-- `FileExistsError` / `NotADirectoryError`, raised by `Path.mkdir` when a
  regular file stands where a directory is required. -/
  | fileExistsError : PyErr
  /-- `FileNotFoundError`, raised by `Path.stat` on a missing path. -/
  | fileNotFoundError : PyErr
deriving DecidableEq, Repr

/-- `p.stat()`: metadata of a file, a default record for a directory, an
exception when the path does not exist. -/
def statPath (fs : FS) (p : FPath) : Except PyErr FileInfo :=
  match assocFind fs.files p with
  | some i => .ok i
  | none => if p ∈ fs.dirs then .ok ⟨0, 0, true, true, true, 0, false⟩
            else .error .fileNotFoundError

/-- Every ancestor path of `p`, the root `[]` and `p` itself included. -/
def ancestors (p : FPath) : List FPath :=
  (List.range (p.length + 1)).map fun n => p.take n

/-- `p.mkdir(parents=True, exist_ok=True)`: raises when a regular file blocks
the target or one of its ancestors, otherwise records the whole chain of
directories (re-creating an existing directory is not an error). -/
def mkdir_parents (fs : FS) (p : FPath) : Except PyErr FS :=
  if (ancestors p).any (fun q => pathExistsFile fs q) then .error .fileExistsError
  else .ok { fs with dirs := fs.dirs ++ (ancestors p).filter (fun q => decide (q ∉ fs.dirs)) }

/-- SUPPORTED_FORMATS (convert.py line 62-64): the fixed raster set, plus
`.svg` when the vector rasterizer loaded at startup. -/
def SUPPORTED_FORMATS (svgSupport : Bool) : List String :=
  [".png", ".jpg", ".jpeg", ".gif", ".bmp", ".tiff", ".tif", ".ico"]
    ++ if svgSupport then [".svg"] else []

/-- def get_output_path(input_path, output_dir, keep_structure, base_input)
(convert.py lines 112-124), with the filesystem threaded through because of
the `mkdir` call in the structure-keeping branch. -/
def get_output_path (fs : FS) (input_path : FPath) (output_dir : Option FPath)
    (keep_structure : Bool) (base_input : Option FPath) : Except PyErr (FPath × FS) :=
  match output_dir with
  | some od =>
    match keep_structure, base_input with
    | true, some bi =>
      if isAncestorOf bi (parentDir input_path) then
        match mkdir_parents fs (od ++ (parentDir input_path).drop bi.length) with
        | .ok fs' =>
          .ok (od ++ (parentDir input_path).drop bi.length ++ [strCat (fstem input_path) ".webp"],
            fs')
        | .error e => .error e
      else .error .valueError
    | _, _ => .ok (od ++ [strCat (fstem input_path) ".webp"], fs)
  | none => .ok (with_suffix input_path ".webp", fs)

/-- The metadata PIL stamps on a fully written WebP output file. -/
def webpInfo (now sz : Nat) : FileInfo :=
  { mtime := now, size := sz }

/-- The remains of an output file whose encode threw partway: PIL's `save`
with a file name opens (creates or truncates) the file before encoding and,
on an encoding error, closes it without removing it. -/
def truncatedInfo (now : Nat) : FileInfo :=
  { mtime := now, size := 0, truncated := true }

/-- `img.save(output_path, 'WEBP', quality=quality, method=6)`: the file at
`output_path` is opened (created or truncated) first, then encoded into; on
an encoding failure the opened, truncated file remains. -/
def pil_save_webp (fs : FS) (output_path : FPath) (src : FileInfo) : Bool × FS :=
  if src.encodeOk then (true, setFile fs output_path (webpInfo fs.now src.webpSize))
  else (false, setFile fs output_path (truncatedInfo fs.now))

/-- def convert_image_to_webp(image_path, output_path, quality) (convert.py
lines 92-109): decode with PIL, normalize the color mode, encode as WebP; any
exception is caught inside and reported as a `false` return. -/
def convert_image_to_webp (fs : FS) (image_path output_path : FPath)
    (quality : Int) : Bool × FS :=
  match assocFind fs.files image_path with
  | none => (false, fs)
  | some info =>
    if info.decodeOk then pil_save_webp fs output_path info
    else (false, fs)

/-- def convert_svg_to_webp(svg_path, output_path, quality, scale) (convert.py
lines 67-89): report failure without work when SVG support is absent,
otherwise rasterize in memory with cairosvg and encode like the raster path;
any exception is caught inside and reported as a `false` return. -/
def convert_svg_to_webp (svgSupport : Bool) (fs : FS) (svg_path output_path : FPath)
    (quality : Int) (scale : ℚ) : Bool × FS :=
  if !svgSupport then (false, fs)
  else
    match assocFind fs.files svg_path with
    | none => (false, fs)
    | some info =>
      if info.rasterOk then pil_save_webp fs output_path info
      else (false, fs)

/-- The per-file console messages of `process_file`, by kind, with the data
interpolated into them. -/
inductive Msg where
  /-- `⊘ Skipped (unsupported): {name}` -/
  | skippedUnsupported (name : String)
  /-- `○ Already converted: {name}` -/
  | alreadyConverted (name : String)
  /-- `✓ Converted & removed: {name} → {outName} {size_info}` -/
  | convertedRemoved (name outName : String) (originalSize newSize : Nat) (reduction : ℚ)
  /-- `✓ Converted: {name} → {outName} {size_info} (could not delete: ...)` -/
  | convertedNoRemove (name outName : String) (originalSize newSize : Nat) (reduction : ℚ)
  /-- `✓ Converted: {name} → {outName} {size_info}` -/
  | converted (name outName : String) (originalSize newSize : Nat) (reduction : ℚ)
  /-- the empty message returned with a conversion failure -/
  | empty
deriving DecidableEq, Repr

/-- reduction = ((original_size - new_size) / original_size) * 100 if
original_size > 0 else 0 (convert.py line 151). -/
def size_reduction (original_size new_size : Nat) : ℚ :=
  if original_size > 0 then
    (((original_size : ℚ) - (new_size : ℚ)) / (original_size : ℚ)) * 100
  else 0

/-- The up-to-date test of convert.py line 139:
`output_path.exists() and output_path.stat().st_mtime > file_path.stat().st_mtime`,
with Python's left-to-right short-circuit evaluation of the stats. -/
def already_check (fs : FS) (output_path file_path : FPath) : Except PyErr Bool :=
  if pathExists fs output_path then
    match statPath fs output_path with
    | .error e => .error e
    | .ok so =>
      match statPath fs file_path with
      | .error e => .error e
      | .ok sf => .ok (decide (so.mtime > sf.mtime))
  else .ok false

/-- The dispatch of convert.py lines 142-145: SVG files go to the vector
converter, everything else to the raster converter. -/
def convert_step (svgSupport : Bool) (fs : FS) (file_path output_path : FPath)
    (quality : Int) (scale : ℚ) : Bool × FS :=
  if lowerStr (fext file_path) = ".svg" then
    convert_svg_to_webp svgSupport fs file_path output_path quality scale
  else convert_image_to_webp fs file_path output_path quality

/-- The success tail of `process_file` (convert.py lines 147-163): stat both
files, compute the size reduction, optionally unlink the source inside a
try/except that merely changes the message on a deletion failure. -/
def after_convert (fs : FS) (file_path output_path : FPath)
    (delete_on_success : Bool) : Except PyErr (Bool × Msg × FS) :=
  match statPath fs file_path with
  | .error e => .error e
  | .ok sf =>
    match statPath fs output_path with
    | .error e => .error e
    | .ok so =>
      let red := size_reduction sf.size so.size
      if delete_on_success then
        if pathExistsFile fs file_path then
          .ok (true, .convertedRemoved (fname file_path) (fname output_path) sf.size so.size red,
            removeFile fs file_path)
        else
          .ok (true, .convertedNoRemove (fname file_path) (fname output_path) sf.size so.size red, fs)
      else .ok (true, .converted (fname file_path) (fname output_path) sf.size so.size red, fs)

/-- def process_file(file_path, output_dir, quality, scale, keep_structure,
base_input, delete_on_success) (convert.py lines 127-165).  The `Except.error`
results are the Python exceptions that escape the function uncaught. -/
def process_file (svgSupport : Bool) (fs : FS) (file_path : FPath)
    (output_dir : Option FPath) (quality : Int) (scale : ℚ)
    (keep_structure : Bool) (base_input : Option FPath)
    (delete_on_success : Bool) : Except PyErr (Bool × Msg × FS) :=
  if lowerStr (fext file_path) ∉ SUPPORTED_FORMATS svgSupport then
    .ok (false, .skippedUnsupported (fname file_path), fs)
  else
    match get_output_path fs file_path output_dir keep_structure base_input with
    | .error e => .error e
    | .ok (output_path, fs1) =>
      match already_check fs1 output_path file_path with
      | .error e => .error e
      | .ok true => .ok (true, .alreadyConverted (fname file_path), fs1)
      | .ok false =>
        let r := convert_step svgSupport fs1 file_path output_path quality scale
        if r.1 then after_convert r.2 file_path output_path delete_on_success
        else .ok (false, .empty, r.2)

/-- Lexicographic comparison of character lists, used to sort paths the way
Python sorts them. -/
def charListLt : List Char → List Char → Bool
  | [], [] => false
  | [], _ :: _ => true
  | _ :: _, [] => false
  | a :: as, b :: bs => if a < b then true else if b < a then false else charListLt as bs

/-- Component-wise path comparison backing Python's `sorted` on paths. -/
def pathLeB : FPath → FPath → Bool
  | [], _ => true
  | _ :: _, [] => false
  | a :: as, b :: bs => if a = b then pathLeB as bs else charListLt a.data b.data

/-- The sort order of the walker's result. -/
def pathLe (a b : FPath) : Prop := pathLeB a b = true

instance : DecidableRel pathLe := fun a b => instDecidableEqBool (pathLeB a b) true

/-- Whether a name begins with a dot.  `pathlib`'s glob matches such names
like any other (a file named `.png` is matched by the pattern `*.png`); the
predicate only serves to state for which names the extension of a glob match
is the matched pattern's extension. -/
def isHiddenL : List Char → Bool
  | '.' :: _ => true
  | _ => false

/-- `pathlib` glob name match against the pattern `*<ext>`: the name ends
with the exact characters of `ext` (`*` may match the empty string, so a
name equal to `ext` itself is matched too). -/
def glob_name_match (name ext : List Char) : Bool :=
  decide (name.drop (name.length - ext.length) = ext ∧ ext.length ≤ name.length)

/-- Whether the directory glob of `find_images` over root `path` reaches the
entry `p`: `p` lies strictly under `path`, at depth one for the pattern `*`
or at any depth for `**/*`, and its name matches `*{ext}` or `*{EXT}` for
some supported extension. -/
def walk_match (svgSupport : Bool) (path p : FPath) (recursive : Bool) : Bool :=
  isAncestorOf path p
    && decide (path.length < p.length)
    && (recursive || decide (p.length = path.length + 1))
    && ((SUPPORTED_FORMATS svgSupport).any fun ext =>
          glob_name_match (fname p).data ext.data
            || glob_name_match (fname p).data (upperStr ext).data)

/-- def find_images(path, recursive) (convert.py lines 177-189): a single
file is returned alone when its extension (lower-cased) is supported; a
directory is globbed once per supported extension in lower and upper case —
the glob matches files and directories alike — and the union is deduplicated
and sorted. -/
def find_images (svgSupport : Bool) (fs : FS) (path : FPath) (recursive : Bool) :
    List FPath :=
  if pathExistsFile fs path then
    if lowerStr (fext path) ∈ SUPPORTED_FORMATS svgSupport then [path] else []
  else
    (((fs.files.map Prod.fst ++ fs.dirs).filter fun p =>
        walk_match svgSupport path p recursive).dedup).insertionSort pathLe

/-- The per-file loop of `main` (convert.py lines 296-307): fold
`process_file` over the discovered images, counting a success for a `true`
flag and a failure for a `false` one; an exception escaping `process_file`
escapes the loop. -/
def run_batch (svgSupport : Bool) (fs : FS) (images : List FPath)
    (output : Option FPath) (quality : Int) (scale : ℚ) (keep_structure : Bool)
    (base_input : FPath) (delete_on_success : Bool) :
    Except PyErr (Nat × Nat × FS) :=
  images.foldl
    (fun acc image =>
      match acc with
      | .error e => .error e
      | .ok (s, f, fs') =>
        match process_file svgSupport fs' image output quality scale keep_structure
            (some base_input) delete_on_success with
        | .error e => .error e
        | .ok (success, _, fs'') =>
          .ok (if success then (s + 1, f, fs'') else (s, f + 1, fs'')))
    (.ok (0, 0, fs))

/-- `args.output.mkdir(parents=True, exist_ok=True)` when an output directory
was given (convert.py lines 271-273). -/
def mkdir_output (fs : FS) (output : Option FPath) : Except PyErr FS :=
  match output with
  | some o => mkdir_parents fs o
  | none => .ok fs

/-- The run configuration after argument parsing and default-mode resolution. -/
structure Args where
  input : FPath
  output : Option FPath
  quality : Int
  recursive : Bool
  scale : ℚ
  keepStructure : Bool
  deleteOnSuccess : Bool
deriving Repr

/-- def main() after argument parsing (convert.py lines 259-313): validate
the input path and the quality (each exiting with code 1), create the output
directory, walk, exit 0 when nothing was found, otherwise run the batch and
exit 0.  The result is the process exit code and the final filesystem; an
`Except.error` is an uncaught exception aborting the run. -/
def main_run (svgSupport : Bool) (fs : FS) (a : Args) : Except PyErr (Int × FS) :=
  if pathExists fs a.input = false then .ok (1, fs)
  else if ¬(1 ≤ a.quality ∧ a.quality ≤ 100) then .ok (1, fs)
  else
    match mkdir_output fs a.output with
    | .error e => .error e
    | .ok fs1 =>
      let images := find_images svgSupport fs1 a.input a.recursive
      if images.isEmpty then .ok (0, fs1)
      else
        let base_input := if pathIsDir fs1 a.input then a.input else parentDir a.input
        match run_batch svgSupport fs1 images a.output a.quality a.scale a.keepStructure
            base_input a.deleteOnSuccess with
        | .error e => .error e
        | .ok (_, _, fs2) => .ok (0, fs2)

/-! Concrete states used to instantiate the theorems. -/

/-- An input tree `/in/sub/x.png` with an already created output root `/out`. -/
def exFS : FS :=
  { files := [(["in", "sub", "x.png"], { mtime := 10, size := 100 })],
    dirs := [[], ["in"], ["in", "sub"], ["out"]], now := 0 }

/-- `exFS` after `get_output_path` created `/out/sub`. -/
def exFS' : FS := { exFS with dirs := exFS.dirs ++ [["out", "sub"]] }

/-- A directory `/d` holding only the unsupported file `/d/b.txt`. -/
def txtFS : FS :=
  { files := [(["d", "b.txt"], { mtime := 0, size := 4 })], dirs := [[], ["d"]], now := 0 }

/-- A run configuration on `/d` with an out-of-range quality. -/
def argsBadQ : Args :=
  { input := ["d"], output := none, quality := 101, recursive := false, scale := 1,
    keepStructure := false, deleteOnSuccess := false }

/-- A run configuration on `/d` with a valid quality. -/
def argsOkQ : Args := { argsBadQ with quality := 80 }

/-- A source `/in/a.png` whose output `/in/a.webp` is already newer. -/
def upToDateFS : FS :=
  { files := [(["in", "a.png"], { mtime := 5, size := 100 }),
              (["in", "a.webp"], { mtime := 9, size := 30 })],
    dirs := [[], ["in"]], now := 50 }

/-- A directory `/d` holding a file named exactly `.png`: the glob pattern
`*.png` matches it, yet its `pathlib` extension is empty. -/
def dotPngFS : FS :=
  { files := [(["d", ".png"], { mtime := 0, size := 7 })], dirs := [[], ["d"]], now := 0 }

/-- A directory `/d` holding `/d/x.Png`, a supported image with a mixed-case
extension. -/
def mixedCaseFS : FS :=
  { files := [(["d", "x.Png"], { mtime := 0, size := 1 })], dirs := [[], ["d"]], now := 0 }

/-- A source `/in/a.png` whose WebP encode fails. -/
def encFailFS : FS :=
  { files := [(["in", "a.png"], { mtime := 5, size := 100, encodeOk := false })],
    dirs := [[], ["in"]], now := 50 }

/-- An input tree `/in/sub/x.png` where a regular file sits at `/out/sub`,
exactly where the structure-keeping resolver must create a directory. -/
def blockedFS : FS :=
  { files := [(["in", "sub", "x.png"], { mtime := 10, size := 100 }),
              (["out", "sub"], { mtime := 0, size := 0 })],
    dirs := [[], ["in"], ["in", "sub"], ["out"]], now := 99 }

/-- A source `/in/a.png` that converts successfully. -/
def okFS : FS :=
  { files := [(["in", "a.png"], { mtime := 5, size := 100, webpSize := 33 })],
    dirs := [[], ["in"]], now := 50 }

/-! Helper lemmas about the filesystem primitives. -/

theorem mkdir_parents_files {fs : FS} {p : FPath} {fs' : FS}
    (h : mkdir_parents fs p = .ok fs') : fs'.files = fs.files := by
  unfold mkdir_parents at h
  split at h
  · exact absurd h (by simp)
  · injection h with h
    subst h
    rfl

theorem mkdir_parents_dirs {fs : FS} {p : FPath} {fs' : FS}
    (h : mkdir_parents fs p = .ok fs') :
    (∀ q ∈ ancestors p, q ∈ fs'.dirs) ∧ ∀ d ∈ fs.dirs, d ∈ fs'.dirs := by
  unfold mkdir_parents at h
  split at h
  · exact absurd h (by simp)
  · injection h with h
    subst h
    refine ⟨fun q hq => ?_, fun d hd => List.mem_append.mpr (Or.inl hd)⟩
    by_cases hd : q ∈ fs.dirs
    · exact List.mem_append.mpr (Or.inl hd)
    · exact List.mem_append.mpr (Or.inr (List.mem_filter.mpr ⟨hq, decide_eq_true hd⟩))

theorem self_mem_ancestors (p : FPath) : p ∈ ancestors p := by
  unfold ancestors
  exact List.mem_map.mpr ⟨p.length, List.mem_range.mpr (Nat.lt_succ_self _), by simp⟩

theorem assocFind_setAssoc_self (l : List (FPath × FileInfo)) (p : FPath) (i : FileInfo) :
    assocFind (setAssoc l p i) p = some i := by
  induction l with
  | nil => simp [setAssoc, assocFind]
  | cons e rest ih =>
    obtain ⟨q, j⟩ := e
    by_cases h : q = p
    · subst h; simp [setAssoc, assocFind]
    · simp [setAssoc, assocFind, h, ih]

theorem assocFind_setAssoc_ne (l : List (FPath × FileInfo)) (p q : FPath) (i : FileInfo)
    (h : q ≠ p) : assocFind (setAssoc l p i) q = assocFind l q := by
  induction l with
  | nil => simp [setAssoc, assocFind, Ne.symm h]
  | cons e rest ih =>
    obtain ⟨q', j'⟩ := e
    by_cases h1 : q' = p
    · subst h1
      simp [setAssoc, assocFind, Ne.symm h]
    · by_cases h2 : q' = q
      · subst h2; simp [setAssoc, assocFind, h1]
      · simp [setAssoc, assocFind, h1, h2, ih]

theorem mem_of_assocFind {l : List (FPath × FileInfo)} {p : FPath} {i : FileInfo}
    (h : assocFind l p = some i) : (p, i) ∈ l := by
  induction l with
  | nil => exact absurd h (by simp [assocFind])
  | cons e rest ih =>
    obtain ⟨q, j⟩ := e
    by_cases h1 : q = p
    · subst h1
      simp only [assocFind, if_pos rfl] at h
      injection h with h
      subst h
      exact List.mem_cons_self _ _
    · simp only [assocFind, if_neg h1] at h
      exact List.mem_cons_of_mem _ (ih h)

theorem statPath_file {fs : FS} {p : FPath} {i : FileInfo}
    (h : assocFind fs.files p = some i) : statPath fs p = .ok i := by
  unfold statPath
  rw [h]

theorem statPath_exists {fs : FS} {p : FPath} (h : pathExists fs p = true) :
    ∃ j, statPath fs p = .ok j := by
  unfold statPath
  cases hf : assocFind fs.files p with
  | some i => exact ⟨i, rfl⟩
  | none =>
    unfold pathExists pathExistsFile pathIsDir at h
    rw [hf] at h
    simp only [Option.isSome_none, Bool.false_or, decide_eq_true_eq] at h
    rw [if_pos h]
    exact ⟨_, rfl⟩

theorem get_output_path_files {fs : FS} {fp : FPath} {od : Option FPath} {ks : Bool}
    {bi : Option FPath} {out : FPath} {fs' : FS}
    (h : get_output_path fs fp od ks bi = .ok (out, fs')) : fs'.files = fs.files := by
  unfold get_output_path at h
  split at h
  · split at h
    · split at h
      · split at h
        · rename_i heq
          injection h with h
          injection h with h1 h2
          subst h2
          exact mkdir_parents_files heq
        · exact absurd h (by simp)
      · exact absurd h (by simp)
    · injection h with h
      injection h with h1 h2
      subst h2
      rfl
  · injection h with h
    injection h with h1 h2
    subst h2
    rfl

/-! Lemmas about name splitting and the glob match. -/

theorem idxOfDot_append {l1 : List Char} (l2 : List Char) (h : '.' ∉ l1) :
    idxOfDot (l1 ++ '.' :: l2) = l1.length := by
  induction l1 with
  | nil => simp [idxOfDot]
  | cons c cs ih =>
    have hc : c ≠ '.' := fun hc => h (hc ▸ List.mem_cons_self _ _)
    have h' : '.' ∉ cs := fun hm => h (List.mem_cons_of_mem _ hm)
    simp [idxOfDot, hc, ih h']

theorem splitExt_of_ext {pre t : List Char} (hp : pre ≠ []) (ht : t ≠ [])
    (hd : '.' ∉ t) : splitExt (pre ++ '.' :: t) = (pre, '.' :: t) := by
  have hpl : 0 < pre.length := List.length_pos.mpr hp
  have htl : 0 < t.length := List.length_pos.mpr ht
  have hidx : idxOfDot (pre ++ '.' :: t).reverse = t.length := by
    have hrev : (pre ++ '.' :: t).reverse = t.reverse ++ '.' :: pre.reverse := by
      simp [List.reverse_append]
    rw [hrev, idxOfDot_append pre.reverse (by simpa using hd), List.length_reverse]
  have hlen : (pre ++ '.' :: t).length = pre.length + t.length + 1 := by
    simp [List.length_append]
    omega
  unfold splitExt
  rw [hidx, hlen]
  have hi : pre.length + t.length + 1 - 1 - t.length = pre.length := by omega
  rw [hi, if_pos ⟨hpl, by omega⟩, List.take_left, List.drop_left]

theorem extShapeB_spec {l : List Char} (h : extShapeB l = true) :
    ∃ t, l = '.' :: t ∧ t ≠ [] ∧ '.' ∉ t := by
  unfold extShapeB at h
  rw [Bool.and_eq_true, Bool.and_eq_true] at h
  obtain ⟨⟨hhead, hlen⟩, htail⟩ := h
  cases l with
  | nil => exact absurd (of_decide_eq_true hlen) (by simp)
  | cons c t =>
    have hc : c = '.' := by simpa using of_decide_eq_true hhead
    subst hc
    refine ⟨t, rfl, ?_, by simpa using of_decide_eq_true htail⟩
    have : 2 ≤ t.length + 1 := by simpa using of_decide_eq_true hlen
    exact List.ne_nil_of_length_pos (by omega)

theorem glob_ext_of_match {name ext : List Char}
    (hshape : extShapeB ext = true) (hn : isHiddenL name = false)
    (h : glob_name_match name ext = true) : (splitExt name).2 = ext := by
  obtain ⟨t, rfl, ht, hd⟩ := extShapeB_spec hshape
  unfold glob_name_match at h
  obtain ⟨hdrop, hle⟩ := of_decide_eq_true h
  have hname : name.take (name.length - ('.' :: t).length) ++ '.' :: t = name := by
    conv_rhs => rw [← List.take_append_drop (name.length - ('.' :: t).length) name]
    rw [hdrop]
  have hp : name.take (name.length - ('.' :: t).length) ≠ [] := by
    intro h0
    rw [h0, List.nil_append] at hname
    have hhid : isHiddenL name = true := by rw [← hname]; rfl
    rw [hhid] at hn
    exact absurd hn (by simp)
  calc (splitExt name).2
      = (splitExt (name.take (name.length - ('.' :: t).length) ++ '.' :: t)).2 := by
        rw [hname]
    _ = '.' :: t := by rw [splitExt_of_ext hp ht hd]

/-- A bulk fact about the concrete supported-extension strings: each has the
dot-shape in lower and upper case, each is already lower-case, and
lower-casing its upper-case form gives it back. -/
theorem supported_shapes (svg : Bool) :
    ((SUPPORTED_FORMATS svg).all fun e =>
      extShapeB e.data && extShapeB (upperStr e).data
        && decide (lowerStr e = e) && decide (lowerStr (upperStr e) = e)) = true := by
  cases svg <;> decide

theorem walk_match_supported {svg : Bool} {root p : FPath} {rec : Bool}
    (h : walk_match svg root p rec = true)
    (hn : isHiddenL (fname p).data = false) :
    lowerStr (fext p) ∈ SUPPORTED_FORMATS svg := by
  unfold walk_match at h
  rw [Bool.and_eq_true] at h
  obtain ⟨ext, hmem, hor⟩ := List.any_eq_true.mp h.2
  have hall := List.all_eq_true.mp (supported_shapes svg) ext hmem
  rw [Bool.and_eq_true, Bool.and_eq_true, Bool.and_eq_true] at hall
  obtain ⟨⟨⟨hsh, hshU⟩, hlow⟩, hlowU⟩ := hall
  have hlow' : lowerStr ext = ext := of_decide_eq_true hlow
  have hlowU' : lowerStr (upperStr ext) = ext := of_decide_eq_true hlowU
  rcases Bool.or_eq_true _ _ |>.mp hor with hg | hg
  · have hsnd : (splitExt (fname p).data).2 = ext.data := glob_ext_of_match hsh hn hg
    have hfe : fext p = ext := by
      unfold fext
      rw [hsnd]
    rw [hfe, hlow']
    exact hmem
  · have hsnd : (splitExt (fname p).data).2 = (upperStr ext).data :=
      glob_ext_of_match hshU hn hg
    have hfe : fext p = upperStr ext := by
      unfold fext
      rw [hsnd]
    rw [hfe, hlowU']
    exact hmem

/-! Lemmas for the containment of converter failures inside process_file. -/

theorem get_output_path_shape {fs : FS} {fp : FPath} {od : Option FPath} {ks : Bool}
    {bi : Option FPath} {out : FPath} {fs' : FS}
    (h : get_output_path fs fp od ks bi = .ok (out, fs')) :
    ∃ D, out = D ++ [strCat (fstem fp) ".webp"] := by
  unfold get_output_path at h
  cases od with
  | none =>
    dsimp only at h
    injection h with h
    injection h with h1 h2
    exact ⟨parentDir fp, h1.symm⟩
  | some o =>
    cases ks with
    | false =>
      dsimp only at h
      injection h with h
      injection h with h1 h2
      exact ⟨o, h1.symm⟩
    | true =>
      cases bi with
      | none =>
        dsimp only at h
        injection h with h
        injection h with h1 h2
        exact ⟨o, h1.symm⟩
      | some b =>
        dsimp only at h
        split at h
        · split at h
          · injection h with h
            injection h with h1 h2
            exact ⟨o ++ (parentDir fp).drop b.length, h1.symm⟩
          · exact absurd h (by simp)
        · exact absurd h (by simp)

theorem fname_append_one (l : FPath) (x : String) : fname (l ++ [x]) = x := by
  unfold fname
  induction l with
  | nil => rfl
  | cons a as ih => simp [List.getLastD]

theorem stem_ext_fname (p : FPath) : strCat (fstem p) (fext p) = fname p := by
  unfold strCat fstem fext
  have h : (splitExt (fname p).data).1 ++ (splitExt (fname p).data).2 = (fname p).data := by
    unfold splitExt
    split
    · exact List.take_append_drop _ _
    · simp
  rw [h]

theorem strCat_right_inj {s a b : String} (h : strCat s a = strCat s b) : a = b := by
  have hd : (strCat s a).data = (strCat s b).data := by rw [h]
  unfold strCat at hd
  have h2 := congrArg (List.drop s.data.length) hd
  rw [List.drop_left, List.drop_left] at h2
  cases a
  cases b
  exact congrArg String.mk h2

theorem ext_ne_webp {svg : Bool} {p : FPath}
    (hsup : lowerStr (fext p) ∈ SUPPORTED_FORMATS svg) : fext p ≠ ".webp" := by
  intro h
  rw [h] at hsup
  have hw : lowerStr ".webp" = ".webp" := by decide
  rw [hw] at hsup
  cases svg <;> exact absurd hsup (by decide)

theorem input_ne_output {svg : Bool} {fs : FS} {fp : FPath} {od : Option FPath}
    {ks : Bool} {bi : Option FPath} {out : FPath} {fs' : FS}
    (h : get_output_path fs fp od ks bi = .ok (out, fs'))
    (hsup : lowerStr (fext fp) ∈ SUPPORTED_FORMATS svg) : fp ≠ out := by
  obtain ⟨D, hD⟩ := get_output_path_shape h
  intro he
  have h1 : fname fp = strCat (fstem fp) ".webp" := by
    conv_lhs => rw [he, hD, fname_append_one]
  have h2 : strCat (fstem fp) (fext fp) = strCat (fstem fp) ".webp" := by
    rw [stem_ext_fname, h1]
  exact ext_ne_webp hsup (strCat_right_inj h2)

theorem convert_image_success {fs : FS} {inP outP : FPath} {q : Int}
    (h : (convert_image_to_webp fs inP outP q).1 = true) :
    ∃ j, assocFind fs.files inP = some j ∧
      convert_image_to_webp fs inP outP q =
        (true, setFile fs outP (webpInfo fs.now j.webpSize)) := by
  unfold convert_image_to_webp at h ⊢
  cases hf : assocFind fs.files inP with
  | none => rw [hf] at h; simp at h
  | some info =>
    rw [hf] at h
    dsimp only at h ⊢
    by_cases hd : info.decodeOk = true
    · rw [if_pos hd] at h ⊢
      unfold pil_save_webp at h ⊢
      by_cases he : info.encodeOk = true
      · rw [if_pos he] at h ⊢
        exact ⟨info, rfl, rfl⟩
      · rw [if_neg he] at h
        simp at h
    · rw [if_neg hd] at h
      simp at h

theorem convert_svg_success {svg : Bool} {fs : FS} {inP outP : FPath} {q : Int} {sc : ℚ}
    (h : (convert_svg_to_webp svg fs inP outP q sc).1 = true) :
    ∃ j, assocFind fs.files inP = some j ∧
      convert_svg_to_webp svg fs inP outP q sc =
        (true, setFile fs outP (webpInfo fs.now j.webpSize)) := by
  unfold convert_svg_to_webp at h ⊢
  cases svg with
  | false => simp at h
  | true =>
    rw [if_neg (by simp)] at h ⊢
    cases hf : assocFind fs.files inP with
    | none => rw [hf] at h; simp at h
    | some info =>
      rw [hf] at h
      dsimp only at h ⊢
      by_cases hr : info.rasterOk = true
      · rw [if_pos hr] at h ⊢
        unfold pil_save_webp at h ⊢
        by_cases he : info.encodeOk = true
        · rw [if_pos he] at h ⊢
          exact ⟨info, rfl, rfl⟩
        · rw [if_neg he] at h
          simp at h
      · rw [if_neg hr] at h
        simp at h

theorem convert_step_success {svg : Bool} {fs : FS} {fp outP : FPath} {q : Int} {sc : ℚ}
    (h : (convert_step svg fs fp outP q sc).1 = true) :
    ∃ j, assocFind fs.files fp = some j ∧
      convert_step svg fs fp outP q sc =
        (true, setFile fs outP (webpInfo fs.now j.webpSize)) := by
  unfold convert_step at h ⊢
  by_cases hx : lowerStr (fext fp) = ".svg"
  · rw [if_pos hx] at h ⊢
    exact convert_svg_success h
  · rw [if_neg hx] at h ⊢
    exact convert_image_success h

/-! The claims. -/

/-- C10: when an output directory is given with keep_structure true but no
base_input, get_output_path silently flattens the output to
`outputDir/<stem>.webp`, exactly as if keep_structure were false: it raises
no error, creates no directory, and leaves the filesystem unchanged. -/
theorem c10_keep_structure_without_base (fs : FS) (p : FPath) (od : FPath) :
    get_output_path fs p (some od) true none = .ok (od ++ [strCat (fstem p) ".webp"], fs) ∧
    get_output_path fs p (some od) true none = get_output_path fs p (some od) false none :=
  ⟨rfl, rfl⟩

/-- C5: get_output_path computes the destination as: with no output
directory, beside the input with the extension replaced by `.webp`; with an
output directory and keep_structure false, `outputDir/<stem>.webp`; with an
output directory, keep_structure true and an ancestor base root, the input's
parent relative to the base mirrored under the output directory; in
particular input `/in/sub/x.png` with base `/in` and output `/out` yields
`/out/sub/x.webp`. -/
theorem c5_output_path_cases (fs : FS) (p : FPath) (od : FPath) (ks : Bool)
    (bi : Option FPath) :
    get_output_path fs p none ks bi = .ok (parentDir p ++ [strCat (fstem p) ".webp"], fs) ∧
    get_output_path fs p (some od) false bi = .ok (od ++ [strCat (fstem p) ".webp"], fs) ∧
    (∀ bi' fs', isAncestorOf bi' (parentDir p) = true →
      mkdir_parents fs (od ++ (parentDir p).drop bi'.length) = .ok fs' →
      get_output_path fs p (some od) true (some bi') =
        .ok (od ++ (parentDir p).drop bi'.length ++ [strCat (fstem p) ".webp"], fs')) ∧
    get_output_path exFS ["in", "sub", "x.png"] (some ["out"]) true (some ["in"]) =
      .ok (["out", "sub", "x.webp"], exFS') := by
  refine ⟨?_, ?_, ?_, ?_⟩
  · cases ks <;> cases bi <;> rfl
  · cases bi <;> rfl
  · intro bi' fs' hanc hmk
    unfold get_output_path
    dsimp only
    rw [if_pos hanc, hmk]
  · rfl

/-- C5 witness: the scenario of the claim, `/in/sub/x.png` under base `/in`
into output `/out`, resolved through the structure-keeping branch. -/
theorem c5_output_path_cases_witness :
    get_output_path exFS ["in", "sub", "x.png"] (some ["out"]) true (some ["in"]) =
      .ok (["out"] ++ (parentDir ["in", "sub", "x.png"]).drop 1
        ++ [strCat (fstem ["in", "sub", "x.png"]) ".webp"], exFS') :=
  (c5_output_path_cases exFS ["in", "sub", "x.png"] ["out"] false none).2.2.1
    ["in"] exFS' (by decide) (by rfl)

/-- C9: the percentage size delta after a successful conversion is
`(original - new) / original * 100` whenever the original size is strictly
positive, and `0` when the original size is `0`; the guarded form never
divides when the original size is zero, so no division error can arise. -/
theorem c9_size_reduction :
    (∀ n, size_reduction 0 n = 0) ∧
    (∀ m n, 0 < m →
      size_reduction m n = (((m : ℚ) - (n : ℚ)) / (m : ℚ)) * 100) := by
  constructor
  · intro n; simp [size_reduction]
  · intro m n h; simp [size_reduction, h]

/-- C9 witness: a 0-byte original yields 0 percent, and a 100-to-40-byte
conversion yields the formula's value. -/
theorem c9_size_reduction_witness :
    size_reduction 0 5 = 0 ∧
    size_reduction 100 40 = (((100 : ℚ) - (40 : ℚ)) / (100 : ℚ)) * 100 :=
  ⟨c9_size_reduction.1 5, c9_size_reduction.2 100 40 (by norm_num)⟩

/-- C8: a quality outside 1-100 makes the run terminate with exit code 1
with the filesystem untouched, before any file is processed; a run whose
walk finds no supported image terminates with exit code 0. -/
theorem c8_quality_validation (svg : Bool) (fs : FS) (a : Args) (fs1 : FS) :
    (¬(1 ≤ a.quality ∧ a.quality ≤ 100) → main_run svg fs a = .ok (1, fs)) ∧
    (pathExists fs a.input = true → 1 ≤ a.quality → a.quality ≤ 100 →
      mkdir_output fs a.output = .ok fs1 →
      find_images svg fs1 a.input a.recursive = [] →
      main_run svg fs a = .ok (0, fs1)) := by
  constructor
  · intro hq
    unfold main_run
    by_cases hin : pathExists fs a.input = false
    · rw [if_pos hin]
    · rw [if_neg hin, if_pos hq]
  · intro hin h1 h100 hmk hempty
    unfold main_run
    rw [if_neg (by simp [hin]), if_neg (not_not_intro ⟨h1, h100⟩), hmk]
    simp [hempty]

/-- C8 witness: quality 101 on an existing directory exits 1 leaving the
state unchanged; quality 80 on a directory with no supported image exits 0. -/
theorem c8_quality_validation_witness :
    main_run true txtFS argsBadQ = .ok (1, txtFS) ∧
    main_run true txtFS argsOkQ = .ok (0, txtFS) :=
  ⟨(c8_quality_validation true txtFS argsBadQ txtFS).1 (by decide),
   (c8_quality_validation true txtFS argsOkQ txtFS).2 (by rfl) (by decide) (by decide)
     (by rfl) (by rfl)⟩

/-- C3: when the computed output path already exists with a modification
time strictly newer than the input's, process_file returns success with the
"already converted" message and changes no file: the files of the resulting
state are exactly those of the initial state. -/
theorem c3_already_converted_skip (svg : Bool) (fs : FS) (fp : FPath)
    (od : Option FPath) (q : Int) (sc : ℚ) (ks : Bool) (bi : Option FPath) (del : Bool)
    (out : FPath) (fs1 : FS) (so sf : FileInfo)
    (hsup : lowerStr (fext fp) ∈ SUPPORTED_FORMATS svg)
    (hres : get_output_path fs fp od ks bi = .ok (out, fs1))
    (hout : assocFind fs1.files out = some so)
    (hfp : assocFind fs1.files fp = some sf)
    (hmt : sf.mtime < so.mtime) :
    process_file svg fs fp od q sc ks bi del =
      .ok (true, .alreadyConverted (fname fp), fs1) ∧
    fs1.files = fs.files := by
  refine ⟨?_, get_output_path_files hres⟩
  have hac : already_check fs1 out fp = .ok true := by
    unfold already_check
    rw [if_pos (by simp [pathExists, pathExistsFile, hout]), statPath_file hout,
      statPath_file hfp]
    have hd : decide (so.mtime > sf.mtime) = true := decide_eq_true hmt
    dsimp only
    rw [hd]
  unfold process_file
  rw [if_neg (not_not_intro hsup), hres]
  dsimp only
  rw [hac]

/-- C3 witness: `/in/a.png` (mtime 5) with existing `/in/a.webp` (mtime 9)
is reported already converted and nothing is touched. -/
theorem c3_already_converted_skip_witness :
    process_file true upToDateFS ["in", "a.png"] none 80 1 false none false =
      .ok (true, .alreadyConverted (fname ["in", "a.png"]), upToDateFS) ∧
    upToDateFS.files = upToDateFS.files :=
  c3_already_converted_skip true upToDateFS ["in", "a.png"] none 80 1 false none false
    ["in", "a.webp"] upToDateFS
    { mtime := 9, size := 30 } { mtime := 5, size := 100 }
    (by decide) (by rfl) (by rfl) (by rfl) (by decide)

/-- C4: for every supported input and every combination of output directory
present/absent and keep_structure true/false, the path returned by
get_output_path has a parent directory that exists once resolution (together
with main's prior creation of the output directory) has completed. -/
theorem c4_parent_dir_exists (fs : FS) (fp : FPath) (od : Option FPath) (ks : Bool)
    (bi : Option FPath) (i : FileInfo) (fs0 : FS) (out : FPath) (fs2 : FS)
    (hwf : ∀ e ∈ fs.files, parentDir e.1 ∈ fs.dirs)
    (hfp : assocFind fs.files fp = some i)
    (hmk : mkdir_output fs od = .ok fs0)
    (hres : get_output_path fs0 fp od ks bi = .ok (out, fs2)) :
    parentDir out ∈ fs2.dirs := by
  have hpar1 : ∀ (l : FPath) (x : String), parentDir (l ++ [x]) = l := fun l x => by
    simp [parentDir]
  cases od with
  | none =>
    have hfs0 : fs0 = fs := by
      unfold mkdir_output at hmk
      injection hmk with hmk
      exact hmk.symm
    subst hfs0
    unfold get_output_path at hres
    dsimp only at hres
    injection hres with hres
    injection hres with h1 h2
    subst h2
    rw [← h1]
    unfold with_suffix
    rw [hpar1]
    exact hwf (fp, i) (mem_of_assocFind hfp)
  | some o =>
    have hmk' : mkdir_parents fs o = .ok fs0 := hmk
    have hdirs := mkdir_parents_dirs hmk'
    unfold get_output_path at hres
    cases ks with
    | false =>
      dsimp only at hres
      injection hres with hres
      injection hres with h1 h2
      subst h2
      rw [← h1, hpar1]
      exact hdirs.1 o (self_mem_ancestors o)
    | true =>
      cases bi with
      | none =>
        dsimp only at hres
        injection hres with hres
        injection hres with h1 h2
        subst h2
        rw [← h1, hpar1]
        exact hdirs.1 o (self_mem_ancestors o)
      | some b =>
        dsimp only at hres
        split at hres
        · split at hres
          · rename_i fsm heq
            injection hres with hres
            injection hres with h1 h2
            subst h2
            rw [← h1, hpar1]
            exact (mkdir_parents_dirs heq).1 _ (self_mem_ancestors _)
          · exact absurd hres (by simp)
        · exact absurd hres (by simp)

/-- C4 witness: resolving `/in/sub/x.png` into output root `/out` with
keep_structure on yields `/out/sub/x.webp`, whose parent `/out/sub` exists in
the resulting state. -/
theorem c4_parent_dir_exists_witness : parentDir ["out", "sub", "x.webp"] ∈ exFS'.dirs :=
  c4_parent_dir_exists exFS ["in", "sub", "x.png"] (some ["out"]) true (some ["in"])
    { mtime := 10, size := 100 } exFS ["out", "sub", "x.webp"] exFS'
    (by decide) (by rfl) (by rfl) (by rfl)

/-- C1 counterexample: the file `/d/.png` has the empty, unsupported
`pathlib` extension, yet the walker includes it — the glob pattern `*.png`
matches the bare name `.png` — so the walker does not exclude every
unsupported-extension file; processing it yields the skipped message with a
`false` success flag, and the batch driver's tally then counts this file as
failed (failure count 1), not as a skip distinct from failure. -/
theorem c1_tally_counterexample :
    ["d", ".png"] ∈ find_images true dotPngFS ["d"] false ∧
    lowerStr (fext ["d", ".png"]) ∉ SUPPORTED_FORMATS true ∧
    process_file true dotPngFS ["d", ".png"] none 80 1 false none false =
      .ok (false, .skippedUnsupported ".png", dotPngFS) ∧
    run_batch true dotPngFS [["d", ".png"]] none 80 1 false ["d"] false =
      .ok (0, 1, dotPngFS) :=
  ⟨by decide, by decide, rfl, rfl⟩

/-- C1 (amended): direct processing of a file whose lower-cased extension is
outside the supported set returns the "skipped (unsupported)" message
without touching the filesystem, but with a `false` success flag, which the
batch driver's tally counts as a failure; the walker excludes every such
file whose name does not begin with a dot, but a file named exactly like an
extension pattern (such as `.png`) is matched by the glob despite its empty,
unsupported extension, so the failed tally of a skipped file is reachable in
a real batch run. -/
theorem c1_unsupported_skip (svg : Bool) (fs : FS) (root p : FPath) (rec : Bool)
    (od : Option FPath) (q : Int) (sc : ℚ) (ks : Bool) (bi : Option FPath) (del : Bool)
    (base : FPath)
    (hunsup : lowerStr (fext p) ∉ SUPPORTED_FORMATS svg) :
    (isHiddenL (fname p).data = false → p ∉ find_images svg fs root rec) ∧
    process_file svg fs p od q sc ks bi del =
      .ok (false, .skippedUnsupported (fname p), fs) ∧
    run_batch svg fs [p] od q sc ks base del = .ok (0, 1, fs) := by
  have hproc : ∀ b : Option FPath, process_file svg fs p od q sc ks b del =
      .ok (false, .skippedUnsupported (fname p), fs) := by
    intro b
    unfold process_file
    rw [if_pos hunsup]
  refine ⟨?_, hproc bi, ?_⟩
  · intro hnothid hmem
    unfold find_images at hmem
    split at hmem
    · split at hmem
      · rename_i hsupp
        rw [List.mem_singleton] at hmem
        subst hmem
        exact hunsup hsupp
      · simp at hmem
    · have hmem' := (List.Perm.mem_iff (List.perm_insertionSort pathLe _)).mp hmem
      rw [List.mem_dedup, List.mem_filter] at hmem'
      exact hunsup (walk_match_supported hmem'.2 hnothid)
  · unfold run_batch
    dsimp only [List.foldl]
    rw [hproc (some base)]
    rfl

/-- C1 witness: the unsupported, non-hidden file `/d/b.txt` is excluded from
the walk of `/d`, is reported skipped by direct processing, and is tallied
as a failure by the driver loop. -/
theorem c1_unsupported_skip_witness :
    (isHiddenL (fname ["d", "b.txt"]).data = false →
      ["d", "b.txt"] ∉ find_images true txtFS ["d"] false) ∧
    process_file true txtFS ["d", "b.txt"] none 80 1 false none false =
      .ok (false, .skippedUnsupported (fname ["d", "b.txt"]), txtFS) ∧
    run_batch true txtFS [["d", "b.txt"]] none 80 1 false ["d"] false =
      .ok (0, 1, txtFS) :=
  c1_unsupported_skip true txtFS ["d"] ["d", "b.txt"] false none 80 1 false none false
    ["d"] (by decide)

/-- C6 counterexample: `/d/x.Png` has extension `.Png`, whose lower-casing
`.png` is in the supported set, so a case-insensitive match would include
it; yet the walker over `/d` returns nothing, because the glob only tries
the all-lower and all-upper spellings of each extension. -/
theorem c6_mixed_case_counterexample :
    lowerStr (fext ["d", "x.Png"]) ∈ SUPPORTED_FORMATS true ∧
    find_images true mixedCaseFS ["d"] false = [] :=
  ⟨by decide, rfl⟩

/-- C6 (amended): over a directory root, the walker's result is
duplicate-free, and a path is in it exactly when it is an entry of the
filesystem (file or directory) reached by the glob: lying under the root (at
depth one when non-recursive, at any depth when recursive) with a name that
ends with the all-lower-case or the all-upper-case spelling of a supported
extension — not with any other mixed-case spelling. -/
theorem c6_walker_membership (svg : Bool) (fs : FS) (root : FPath) (rec : Bool)
    (hroot : pathExistsFile fs root = false) :
    (find_images svg fs root rec).Nodup ∧
    (∀ p, p ∈ find_images svg fs root rec ↔
      p ∈ fs.files.map Prod.fst ++ fs.dirs ∧ walk_match svg root p rec = true) := by
  have hcond : ¬(pathExistsFile fs root = true) := by simp [hroot]
  constructor
  · unfold find_images
    rw [if_neg hcond]
    exact (List.Perm.nodup_iff (List.perm_insertionSort pathLe _)).mpr
      (List.nodup_dedup _)
  · intro p
    unfold find_images
    rw [if_neg hcond, List.Perm.mem_iff (List.perm_insertionSort pathLe _),
      List.mem_dedup, List.mem_filter]

/-- C6 witness: over the concrete directory `/d` holding only `/d/x.Png`,
the walker's result is duplicate-free and membership of `/d/x.Png` reduces
to the glob condition (which fails for it). -/
theorem c6_walker_membership_witness :
    (find_images true mixedCaseFS ["d"] false).Nodup ∧
    (["d", "x.Png"] ∈ find_images true mixedCaseFS ["d"] false ↔
      ["d", "x.Png"] ∈ mixedCaseFS.files.map Prod.fst ++ mixedCaseFS.dirs ∧
        walk_match true ["d"] ["d", "x.Png"] false = true) :=
  ⟨(c6_walker_membership true mixedCaseFS ["d"] false rfl).1,
   (c6_walker_membership true mixedCaseFS ["d"] false rfl).2 ["d", "x.Png"]⟩

/-- C7 counterexample: converting `/in/a.png` whose WebP encode fails
returns failure, yet an output file now exists at `/in/a.webp` (truncated),
where none existed before — refuting that the converter "writes nothing when
it returns failure". -/
theorem c7_truncated_output_counterexample :
    (convert_image_to_webp encFailFS ["in", "a.png"] ["in", "a.webp"] 80).1 = false ∧
    pathExistsFile encFailFS ["in", "a.webp"] = false ∧
    assocFind (convert_image_to_webp encFailFS ["in", "a.png"] ["in", "a.webp"] 80).2.files
      ["in", "a.webp"] = some (truncatedInfo 50) :=
  ⟨rfl, rfl, rfl⟩

/-- C7 (amended): on success either converter writes exactly the one output
file; when the failure occurs before the encoder opens the output (missing
or undecodable input, unavailable SVG support, rasterization failure)
nothing is written; but when the WebP encode itself fails, a truncated
output file is created and left behind. -/
theorem c7_converter_writes (fs : FS) (inP outP : FPath) (q : Int) (sc : ℚ)
    (i : FileInfo) :
    (assocFind fs.files inP = some i → i.decodeOk = true → i.encodeOk = true →
      convert_image_to_webp fs inP outP q =
        (true, setFile fs outP (webpInfo fs.now i.webpSize))) ∧
    (assocFind fs.files inP = none → convert_image_to_webp fs inP outP q = (false, fs)) ∧
    (assocFind fs.files inP = some i → i.decodeOk = false →
      convert_image_to_webp fs inP outP q = (false, fs)) ∧
    (assocFind fs.files inP = some i → i.decodeOk = true → i.encodeOk = false →
      convert_image_to_webp fs inP outP q =
        (false, setFile fs outP (truncatedInfo fs.now))) ∧
    (convert_svg_to_webp false fs inP outP q sc = (false, fs)) ∧
    (assocFind fs.files inP = none →
      convert_svg_to_webp true fs inP outP q sc = (false, fs)) ∧
    (assocFind fs.files inP = some i → i.rasterOk = false →
      convert_svg_to_webp true fs inP outP q sc = (false, fs)) ∧
    (assocFind fs.files inP = some i → i.rasterOk = true → i.encodeOk = true →
      convert_svg_to_webp true fs inP outP q sc =
        (true, setFile fs outP (webpInfo fs.now i.webpSize))) ∧
    (assocFind fs.files inP = some i → i.rasterOk = true → i.encodeOk = false →
      convert_svg_to_webp true fs inP outP q sc =
        (false, setFile fs outP (truncatedInfo fs.now))) := by
  refine ⟨?_, ?_, ?_, ?_, ?_, ?_, ?_, ?_, ?_⟩
  · intro h hd he
    simp [convert_image_to_webp, pil_save_webp, h, hd, he]
  · intro h
    simp [convert_image_to_webp, h]
  · intro h hd
    simp [convert_image_to_webp, h, hd]
  · intro h hd he
    simp [convert_image_to_webp, pil_save_webp, h, hd, he]
  · simp [convert_svg_to_webp]
  · intro h
    simp [convert_svg_to_webp, h]
  · intro h hr
    simp [convert_svg_to_webp, h, hr]
  · intro h hr he
    simp [convert_svg_to_webp, pil_save_webp, h, hr, he]
  · intro h hr he
    simp [convert_svg_to_webp, pil_save_webp, h, hr, he]

/-- C7 witness: a successful conversion of `/in/a.png` writes exactly the one
output `/in/a.webp`, and the failing encode of the same file under `encFailFS`
leaves the truncated output behind. -/
theorem c7_converter_writes_witness :
    convert_image_to_webp okFS ["in", "a.png"] ["in", "a.webp"] 80 =
      (true, setFile okFS ["in", "a.webp"] (webpInfo okFS.now 33)) ∧
    convert_image_to_webp encFailFS ["in", "a.png"] ["in", "a.webp"] 80 =
      (false, setFile encFailFS ["in", "a.webp"] (truncatedInfo encFailFS.now)) :=
  ⟨(c7_converter_writes okFS ["in", "a.png"] ["in", "a.webp"] 80 1
      { mtime := 5, size := 100, webpSize := 33 }).1 rfl rfl rfl,
   (c7_converter_writes encFailFS ["in", "a.png"] ["in", "a.webp"] 80 1
      { mtime := 5, size := 100, encodeOk := false }).2.2.2.1 rfl rfl rfl⟩

/-- C2 counterexample: the file `/in/sub/x.png` is discovered by the walker,
yet processing it with keep_structure into `/out` raises an uncaught
exception — a regular file sits at `/out/sub`, so the `mkdir` inside output
path resolution throws — and the same exception escapes the batch loop,
terminating the run; so not every per-file error is caught at the
file-processing boundary. -/
theorem c2_mkdir_counterexample :
    ["in", "sub", "x.png"] ∈ find_images true blockedFS ["in"] true ∧
    process_file true blockedFS ["in", "sub", "x.png"] (some ["out"]) 80 1 true
      (some ["in"]) false = .error .fileExistsError ∧
    run_batch true blockedFS [["in", "sub", "x.png"]] (some ["out"]) 80 1 true
      ["in"] false = .error .fileExistsError := by
  refine ⟨?_, rfl, rfl⟩
  decide

/-- C2 (amended): errors inside decode, rasterization and encode are caught
within the converters, so whenever output-path resolution succeeds and the
input file exists to be stat'ed, process_file returns a result record and no
exception escapes; but exceptions raised by output-path resolution itself
(directory creation, relative-path computation) or by the stat calls are not
caught at the file-processing boundary and terminate the batch. -/
theorem c2_per_file_errors (svg : Bool) (fs : FS) (fp : FPath) (od : Option FPath)
    (q : Int) (sc : ℚ) (ks : Bool) (bi : Option FPath) (del : Bool) (out : FPath)
    (fs1 : FS) (i : FileInfo)
    (hres : get_output_path fs fp od ks bi = .ok (out, fs1))
    (hfp : assocFind fs.files fp = some i) :
    ∃ r, process_file svg fs fp od q sc ks bi del = .ok r := by
  by_cases hsup : lowerStr (fext fp) ∈ SUPPORTED_FORMATS svg
  · have hfiles : fs1.files = fs.files := get_output_path_files hres
    have hfp1 : assocFind fs1.files fp = some i := by rw [hfiles]; exact hfp
    unfold process_file
    rw [if_neg (not_not_intro hsup), hres]
    dsimp only
    have hac : ∃ b, already_check fs1 out fp = .ok b := by
      unfold already_check
      by_cases hex : pathExists fs1 out = true
      · rw [if_pos hex]
        obtain ⟨so, hso⟩ := statPath_exists hex
        rw [hso, statPath_file hfp1]
        exact ⟨_, rfl⟩
      · rw [if_neg hex]
        exact ⟨false, rfl⟩
    obtain ⟨b, hb⟩ := hac
    rw [hb]
    cases b with
    | true => exact ⟨_, rfl⟩
    | false =>
      dsimp only
      by_cases hcs : (convert_step svg fs1 fp out q sc).1 = true
      · rw [if_pos hcs]
        obtain ⟨j, hj, hstep⟩ := convert_step_success hcs
        have hne : fp ≠ out := input_ne_output hres hsup
        rw [hstep]
        have hfind : assocFind (setFile fs1 out (webpInfo fs1.now j.webpSize)).files fp =
            some i := by
          show assocFind (setAssoc fs1.files out _) fp = some i
          rw [assocFind_setAssoc_ne _ _ _ _ hne]
          exact hfp1
        have hfindo : assocFind (setFile fs1 out (webpInfo fs1.now j.webpSize)).files out =
            some (webpInfo fs1.now j.webpSize) := assocFind_setAssoc_self _ _ _
        unfold after_convert
        rw [statPath_file hfind, statPath_file hfindo]
        dsimp only
        by_cases hdel : del = true
        · rw [if_pos hdel]
          have hpe : pathExistsFile (setFile fs1 out (webpInfo fs1.now j.webpSize)) fp =
              true := by
            unfold pathExistsFile
            rw [hfind]
            rfl
          rw [if_pos hpe]
          exact ⟨_, rfl⟩
        · rw [if_neg hdel]
          exact ⟨_, rfl⟩
      · rw [if_neg hcs]
        exact ⟨_, rfl⟩
  · exact ⟨_, by unfold process_file; rw [if_pos hsup]⟩

/-- C2 witness: processing `/in/a.png` whose encode fails still yields a
result record (no exception), the converter failure being contained. -/
theorem c2_per_file_errors_witness :
    ∃ r, process_file true encFailFS ["in", "a.png"] none 80 1 false none false = .ok r :=
  c2_per_file_errors true encFailFS ["in", "a.png"] none 80 1 false none false
    ["in", "a.webp"] encFailFS { mtime := 5, size := 100, encodeOk := false }
    rfl rfl

end WebpConv
